import Mathlib

/-!
Verification development for the hikari-stalker-webhook repository.

The Python sources are shallowly embedded below:

* `webhook_server.py` — fortune catalog loading, the mood/sector map, the
  date-seeded fortune selector `get_todays_stock_fortune`, the text-message
  dispatcher and the postback handler.
* `restapi.py` — the `/api/latest_companies` endpoint.

The global pseudo-random generator of Python's `random` module is modelled
as an explicit state of type `Nat` threaded through the selector:
`random.seed(today)` sets the state to `seedOf today`, `random.choice`
consumes the current state through an abstract index function `choiceFn`
(state and list length determine the chosen index), and the trailing
`random.seed()` sets the state to an entropy-derived value `entropySeed`.
All theorems quantify over `seedOf`, `choiceFn` and `entropySeed`, so they
hold for Python's actual Mersenne-Twister implementation in particular.
-/

/-- One entry of the stock-fortune catalog (`stock_fortune.json` schema). -/
structure FortuneEntry where
  code : String
  name : String
  sector : String
  comment : String
deriving DecidableEq

/-- The hard-coded fallback dataset of `load_stock_fortune_data`
(webhook_server.py, lines 35-54). -/
def fallback_stock_fortune_data : List FortuneEntry :=
  [ { code := "9432", name := "日本電信電話", sector := "情報・通信",
      comment := "安定した通信大手。長期保有向き。" },
    { code := "7203", name := "トヨタ自動車", sector := "輸送用機器",
      comment := "世界最大級の自動車メーカー。安定した実績。" },
    { code := "8306", name := "三菱UFJフィナンシャル・グループ", sector := "銀行業",
      comment := "日本最大のメガバンク。配当利回りに期待。" } ]

/-- `load_stock_fortune_data` (webhook_server.py, lines 28-54).  Reading and
parsing `stock_fortune.json` is external I/O; its outcome is passed in as an
`Except`: `Except.ok data` models a successful `json.load`, `Except.error e`
models any raised exception.  On success the parsed data is returned as is;
on failure the fallback dataset is returned. -/
def load_stock_fortune_data (loadResult : Except String (List FortuneEntry)) :
    List FortuneEntry :=
  match loadResult with
  | Except.ok data => data
  | Except.error _ => fallback_stock_fortune_data

/-- `MOOD_MAPPING` (webhook_server.py, lines 60-66), as an association list
in the dictionary's insertion order. -/
def MOOD_MAPPING : List (String × List String) :=
  [ ("積極的", ["情報・通信", "サービス業", "電気機器"]),
    ("保守的", ["銀行業", "食料品", "卸売業", "小売業"]),
    ("冒険的", ["情報・通信", "医薬品", "サービス業"]),
    ("長期的", ["輸送用機器", "電気機器", "食料品", "銀行業"]),
    ("短期的", ["情報・通信", "サービス業", "小売業"]) ]

/-- The mood-based restriction of the catalog (webhook_server.py, lines
115-123).  Python's `if mood and mood in MOOD_MAPPING` first tests
truthiness of `mood` (`None` and the empty string are falsy), then key
membership; when the filter selects nothing the full catalog is used. -/
def moodFiltered (catalog : List FortuneEntry) (mood : Option String) :
    List FortuneEntry :=
  match mood with
  | none => catalog
  | some m =>
    if m = "" then catalog
    else
      match List.lookup m MOOD_MAPPING with
      | none => catalog
      | some preferred_sectors =>
        let filtered_stocks :=
          catalog.filter (fun stock => preferred_sectors.contains stock.sector)
        if filtered_stocks.isEmpty then catalog else filtered_stocks

/-- `get_todays_stock_fortune` (webhook_server.py, lines 107-131).

Inputs beyond the Python argument `mood`:
* `choiceFn` — model of `random.choice`: from the generator state and the
  candidate-list length it produces an index (reduced `% length` so that the
  chosen index is in range, as `random.choice` guarantees for non-empty
  sequences);
* `seedOf` — model of `random.seed(today)`;
* `entropySeed` — the fresh state installed by the final `random.seed()`;
* `catalog` — the global `STOCK_FORTUNE_DATA`;
* `today` — `datetime.now().strftime(yyyymmdd)` for the current day;
* `rngState` — the generator state when the call starts.

Returns the selected entry (`none` when the catalog is empty, mirroring the
early `return None`, which leaves the generator state untouched) together
with the generator state when the call returns. -/
def get_todays_stock_fortune (choiceFn : Nat → Nat → Nat) (seedOf : String → Nat)
    (entropySeed : Nat) (catalog : List FortuneEntry) (today : String)
    (mood : Option String) (rngState : Nat) : Option FortuneEntry × Nat :=
  if catalog.isEmpty then (none, rngState)
  else
    let seeded := seedOf today
    let filtered_stocks := moodFiltered catalog mood
    (filtered_stocks.get? (choiceFn seeded filtered_stocks.length % filtered_stocks.length),
     entropySeed)

/-- Python's `str.isspace` character class, used by `str.strip()`. -/
def pyIsSpace (c : Char) : Bool :=
  c = ' ' || c = '\t' || c = '\n' || c = '\r' || c = '\u000b' || c = '\u000c' ||
  c = '\u001c' || c = '\u001d' || c = '\u001e' || c = '\u001f' || c = '\u0085' ||
  c = ' ' || c = ' ' || (' ' ≤ c && c ≤ ' ') || c = ' ' ||
  c = ' ' || c = ' ' || c = ' ' || c = '　'

/-- Python's `str.strip()`: drop leading and trailing whitespace. -/
def pyStrip (s : String) : String :=
  String.mk (((s.data.dropWhile pyIsSpace).reverse.dropWhile pyIsSpace).reverse)

/-- Python's `str.startswith(pre)` on whole strings. -/
def pyStartsWith (s pre : String) : Bool :=
  pre.data.isPrefixOf s.data

/-- Worker for `pyReplace`: scan left to right; whenever `pat` occurs at the
current position emit `rep` and skip past the occurrence, otherwise keep one
character and continue.  The fuel argument (initially the length of the text,
which bounds the number of scanning steps whenever `pat` is non-empty, as it
is at every call site of `str.replace` in the source) makes the recursion
structural. -/
def replaceGo (pat rep : List Char) : Nat → List Char → List Char
  | _, [] => []
  | 0, s => s
  | fuel + 1, c :: cs =>
    if pat.isPrefixOf (c :: cs) then
      rep ++ replaceGo pat rep fuel (List.drop pat.length (c :: cs))
    else
      c :: replaceGo pat rep fuel cs

/-- Python's `str.replace(old, new)` for non-empty `old`: every
non-overlapping occurrence of `old`, found left to right, is replaced. -/
def pyReplace (s old new : String) : String :=
  String.mk (replaceGo old.data new.data s.data.length s.data)

/-- True when `pat` occurs as a contiguous subsequence of `s` (for non-empty
`pat`). -/
def containsSeq (pat : List Char) : List Char → Bool
  | [] => false
  | c :: cs => pat.isPrefixOf (c :: cs) || containsSeq pat cs

/-- The classification of an inbound text message made by
`handle_text_message` (one constructor per branch of the conditional
chain; the stubbed analysis replies and platform sends happen downstream). -/
inductive ReplyAction where
  | ShowCompanyQuickReplies : ReplyAction
  | ShowCompanyDetail (name : String) : ReplyAction
  | ShowFortune (mood : Option String) : ReplyAction
  | Echo (original : String) : ReplyAction
deriving DecidableEq, BEq

/-- The exact-match test of the daily-fortune branch (webhook_server.py,
line 198): the four accepted literal phrasings. -/
def isDailyFortuneTrigger (s : String) : Bool :=
  s == "今日の株みくじをする！🥠" || s == "今日の株みくじ🍀" ||
  s == "今日の株みくじ" || s == "今日の株みくじをする"

/-- The branch structure of `handle_text_message` (webhook_server.py, lines
134-257), as a pure classifier: trim the text, then run the ordered rule
chain, first match wins.  The remainder extractions use `str.replace` (all
occurrences) followed by `str.strip`, exactly as in the source; the final
branch echoes the original untrimmed text. -/
def handle_text_message (text : String) : ReplyAction :=
  let normalized_text := pyStrip text
  if normalized_text = "光通信を分析" then
    ReplyAction.ShowCompanyQuickReplies
  else if pyStartsWith normalized_text "詳細:" then
    ReplyAction.ShowCompanyDetail (pyStrip (pyReplace normalized_text "詳細:" ""))
  else if isDailyFortuneTrigger normalized_text then
    ReplyAction.ShowFortune none
  else if pyStartsWith normalized_text "株みくじ:" then
    let mood := pyStrip (pyReplace normalized_text "株みくじ:" "")
    ReplyAction.ShowFortune (if mood = "おまかせ" then none else some mood)
  else
    ReplyAction.Echo text

/-- The reply text built by the daily-fortune branch of
`handle_text_message` (webhook_server.py, lines 198-209): run the selector
with no mood and render the entry, or apologize when no entry came back.
`todayFmt` is the displayed date string of the same calendar day as the
seed string `today`. -/
def text_message_fortune_reply (choiceFn : Nat → Nat → Nat) (seedOf : String → Nat)
    (entropySeed : Nat) (catalog : List FortuneEntry) (today todayFmt : String)
    (rngState : Nat) : String :=
  match (get_todays_stock_fortune choiceFn seedOf entropySeed catalog today none rngState).1 with
  | some fortune =>
    "🎯 " ++ todayFmt ++ "の株みくじ\n\n【" ++ fortune.name ++ "】(" ++ fortune.code ++
    ")\n業種：" ++ fortune.sector ++ "\nコメント：" ++ fortune.comment
  | none => "😢 株みくじデータを読み込めませんでした。"

/-- The reply text computed by `handle_postback` (webhook_server.py, lines
259-283) for a given opaque postback code `data`: exact match on the three
known codes, anything else is the unknown-operation reply.  The fortune
branch re-runs the selector and renders its own copy of the template
(lines 270-281). -/
def handle_postback (choiceFn : Nat → Nat → Nat) (seedOf : String → Nat)
    (entropySeed : Nat) (catalog : List FortuneEntry) (today todayFmt : String)
    (data : String) (rngState : Nat) : String :=
  if data = "action=detail" then "📄 報告書の詳細をお送りします（ダミー）"
  else if data = "action=holdings" then "📊 あなたの持ち株を分析します（ダミー）"
  else if data = "action=fortune" then
    match (get_todays_stock_fortune choiceFn seedOf entropySeed catalog today none rngState).1 with
    | some fortune =>
      "🎯 " ++ todayFmt ++ "の株みくじ\n\n【" ++ fortune.name ++ "】(" ++ fortune.code ++
      ")\n業種：" ++ fortune.sector ++ "\nコメント：" ++ fortune.comment
    | none => "😢 株みくじデータを読み込めませんでした。"
  else "⚠️ 不明な操作です"

/-- Modelled from the spec: the Company Lookup Gateway
(`get_latest_companies_by_date`, imported from `../hikari-py/db.py`, which
is not part of this repository) returns the most recent `limit` company
names as an ordered sequence.  `availableNames` stands for the gateway's
backing data, most recent first. -/
def get_latest_companies_by_date (availableNames : List String) (limit : Nat) :
    List String :=
  availableNames.take limit

/-- One quick-reply option as built by the analysis branch: the displayed
label and the message text sent when the option is tapped. -/
structure QuickReplyOption where
  label : String
  text : String
deriving DecidableEq

/-- The quick-reply option list built by the analysis-trigger branch of
`handle_text_message` (webhook_server.py, lines 145-154): one option per
fetched company name, label truncated to the first 20 characters
(`name[:20]`), message text the detail-request prefix followed by the full
name. -/
def build_quick_reply_items (companies : List String) : List QuickReplyOption :=
  companies.map (fun name =>
    { label := String.mk (name.data.take 20), text := "詳細:" ++ name })

/-- The full quick-reply composition for the analysis trigger: fetch up to
5 names through the gateway, then build one option per name. -/
def analysis_quick_replies (availableNames : List String) : List QuickReplyOption :=
  build_quick_reply_items (get_latest_companies_by_date availableNames 5)

/-- One row of the `reports` table read by restapi.py. -/
structure FilingRecord where
  company_name : String
  stock_code : String
  document_type : String
  date : String
deriving DecidableEq

/-- One element of the `companies` array in the endpoint's JSON answer. -/
structure CompanyOut where
  name : String
  code : String
  type : String
deriving DecidableEq

/-- The three response shapes `get_latest_companies` can produce: the 200
payload, the 404 error body and the 500 error body. -/
inductive ApiResponse where
  | ok (latest_date : String) (companies : List CompanyOut) : ApiResponse
  | notFound (error : String) : ApiResponse
  | serverError (error : String) : ApiResponse
deriving DecidableEq, BEq

/-- The HTTP status code attached to each response shape. -/
def statusCode : ApiResponse → Nat
  | ApiResponse.ok _ _ => 200
  | ApiResponse.notFound _ => 404
  | ApiResponse.serverError _ => 500

/-- Byte-wise (here: code-point-wise) strict lexicographic order on
character lists, the order SQLite's `MAX` uses on `TEXT` values under the
default BINARY collation. -/
def listLex : List Char → List Char → Bool
  | _, [] => false
  | [], _ :: _ => true
  | a :: as, b :: bs =>
    if a.toNat < b.toNat then true
    else if b.toNat < a.toNat then false
    else listLex as bs

/-- One accumulation step of SQL `MAX` over the `date` column: keep the
greater of the running maximum and the next row's date. -/
def sql_max_step (acc : Option String) (r : FilingRecord) : Option String :=
  match acc with
  | none => some r.date
  | some m => if listLex m.data r.date.data then some r.date else some m

/-- `SELECT MAX(date) FROM reports` (restapi.py, line 22): `none` on an
empty table (SQL `NULL`), otherwise the greatest date string under the
binary collation. -/
def sql_max_date (store : List FilingRecord) : Option String :=
  store.foldl sql_max_step none

/-- `SELECT company_name, stock_code, document_type FROM reports WHERE date
= ?` followed by the JSON projection (restapi.py, lines 29-43), in table
order. -/
def companies_for (store : List FilingRecord) (d : String) : List CompanyOut :=
  (store.filter (fun r => r.date == d)).map
    (fun r => { name := r.company_name, code := r.stock_code, type := r.document_type })

/-- `get_latest_companies` (restapi.py, lines 15-46).  The outcome of
reaching the database is passed in as an `Except`: `Except.error e` models
an exception caught by the surrounding `try`, answered with a 500 body
carrying the message.  Otherwise the handler takes `MAX(date)`; Python's
`if not latest_date` sends the 404 body both when the maximum is SQL `NULL`
(empty table) and when it is the falsy empty string.  In the remaining case
it answers 200 with the maximum date and the rows carrying it. -/
def get_latest_companies (queryResult : Except String (List FilingRecord)) :
    ApiResponse :=
  match queryResult with
  | Except.error e => ApiResponse.serverError e
  | Except.ok store =>
    match sql_max_date store with
    | none => ApiResponse.notFound "No data found"
    | some latest_date =>
      if latest_date = "" then ApiResponse.notFound "No data found"
      else ApiResponse.ok latest_date (companies_for store latest_date)

theorem pick_get_mem {α : Type} (l : List α) (k : Nat) (h : l ≠ []) :
    ∃ e, l.get? (k % l.length) = some e ∧ e ∈ l := by
  have hlen : 0 < l.length := List.length_pos.mpr h
  have hk : k % l.length < l.length := Nat.mod_lt k hlen
  exact ⟨l.get ⟨k % l.length, hk⟩, List.get?_eq_get hk, List.get_mem l _ hk⟩

theorem fortune_fst_state_irrel (choiceFn : Nat → Nat → Nat) (seedOf : String → Nat)
    (e₁ e₂ : Nat) (catalog : List FortuneEntry) (today : String)
    (mood : Option String) (st₁ st₂ : Nat) :
    (get_todays_stock_fortune choiceFn seedOf e₁ catalog today mood st₁).1 =
    (get_todays_stock_fortune choiceFn seedOf e₂ catalog today mood st₂).1 := by
  unfold get_todays_stock_fortune
  by_cases h : catalog.isEmpty = true <;> simp [h]

theorem isPrefixOf_append_self (p r : List Char) : p.isPrefixOf (p ++ r) = true := by
  induction p with
  | nil => cases r <;> rfl
  | cons c cs ih => simp [List.isPrefixOf, ih]

theorem replaceGo_no_occurrence (pat rep : List Char) :
    ∀ (fuel : Nat) (s : List Char), containsSeq pat s = false →
      replaceGo pat rep fuel s = s := by
  intro fuel
  induction fuel with
  | zero =>
    intro s _
    cases s <;> rfl
  | succ n ih =>
    intro s hs
    cases s with
    | nil => rfl
    | cons c cs =>
      simp only [containsSeq, Bool.or_eq_false_iff] at hs
      simp only [replaceGo, hs.1, Bool.false_eq_true, if_false]
      rw [ih cs hs.2]

theorem replaceGo_strip_leading (pat rest : List Char) (hp : pat ≠ [])
    (h : containsSeq pat rest = false) :
    replaceGo pat [] (pat ++ rest).length (pat ++ rest) = rest := by
  cases pat with
  | nil => exact absurd rfl hp
  | cons p ps =>
    have hpre : (p :: ps).isPrefixOf (p :: (ps ++ rest)) = true :=
      isPrefixOf_append_self (p :: ps) rest
    simp only [List.cons_append, List.length_cons]
    rw [replaceGo, if_pos hpre]
    simp only [List.nil_append, List.length_cons, List.drop_succ_cons]
    rw [List.drop_left ps rest]
    exact replaceGo_no_occurrence (p :: ps) [] _ rest h

theorem listLex_irrefl (l : List Char) : listLex l l = false := by
  induction l with
  | nil => rfl
  | cons c cs ih => simp [listLex, ih]

theorem listLex_trans (a : List Char) : ∀ (b c : List Char),
    listLex a b = true → listLex b c = true → listLex a c = true := by
  induction a with
  | nil =>
    intro b c hab hbc
    cases c with
    | nil =>
      cases b with
      | nil => simp [listLex] at hab
      | cons y ys => simp [listLex] at hbc
    | cons z zs => simp [listLex]
  | cons x xs ih =>
    intro b c hab hbc
    cases b with
    | nil => simp [listLex] at hab
    | cons y ys =>
      cases c with
      | nil => simp [listLex] at hbc
      | cons z zs =>
        by_cases hxy : x.toNat < y.toNat
        · by_cases hyz : y.toNat < z.toNat
          · have hxz : x.toNat < z.toNat := Nat.lt_trans hxy hyz
            simp [listLex, hxz]
          · by_cases hzy : z.toNat < y.toNat
            · simp [listLex, hyz, hzy] at hbc
            · have hxz : x.toNat < z.toNat := by omega
              simp [listLex, hxz]
        · by_cases hyx : y.toNat < x.toNat
          · simp [listLex, hxy, hyx] at hab
          · simp only [listLex, if_neg hxy, if_neg hyx] at hab
            by_cases hyz : y.toNat < z.toNat
            · have hxz : x.toNat < z.toNat := by omega
              simp [listLex, hxz]
            · by_cases hzy : z.toNat < y.toNat
              · simp [listLex, hyz, hzy] at hbc
              · simp only [listLex, if_neg hyz, if_neg hzy] at hbc
                have hxz : ¬ x.toNat < z.toNat := by omega
                have hzx : ¬ z.toNat < x.toNat := by omega
                simp only [listLex, if_neg hxz, if_neg hzx]
                exact ih ys zs hab hbc

theorem listLex_trans_not (a : List Char) : ∀ (b c : List Char),
    listLex a b = true → listLex c b = false → listLex a c = true := by
  induction a with
  | nil =>
    intro b c hab hcb
    cases c with
    | nil =>
      cases b with
      | nil => simp [listLex] at hab
      | cons y ys => simp [listLex] at hcb
    | cons z zs => simp [listLex]
  | cons x xs ih =>
    intro b c hab hcb
    cases b with
    | nil => simp [listLex] at hab
    | cons y ys =>
      cases c with
      | nil => simp [listLex] at hcb
      | cons z zs =>
        by_cases hzy : z.toNat < y.toNat
        · simp [listLex, hzy] at hcb
        · by_cases hxy : x.toNat < y.toNat
          · by_cases hyz : y.toNat < z.toNat
            · have hxz : x.toNat < z.toNat := Nat.lt_trans hxy hyz
              simp [listLex, hxz]
            · have hxz : x.toNat < z.toNat := by omega
              simp [listLex, hxz]
          · by_cases hyx : y.toNat < x.toNat
            · simp [listLex, hxy, hyx] at hab
            · simp only [listLex, if_neg hxy, if_neg hyx] at hab
              by_cases hyz : y.toNat < z.toNat
              · have hxz : x.toNat < z.toNat := by omega
                simp [listLex, hxz]
              · simp only [listLex, if_neg hzy, if_neg hyz] at hcb
                have hxz : ¬ x.toNat < z.toNat := by omega
                have hzx : ¬ z.toNat < x.toNat := by omega
                simp only [listLex, if_neg hxz, if_neg hzx]
                exact ih ys zs hab hcb

theorem sql_max_go (store : List FilingRecord) : ∀ (m : String),
    ∃ d, List.foldl sql_max_step (some m) store = some d ∧
      (d = m ∨ d ∈ store.map (fun r => r.date)) ∧
      listLex d.data m.data = false ∧
      ∀ r ∈ store, listLex d.data r.date.data = false := by
  induction store with
  | nil =>
    intro m
    exact ⟨m, rfl, Or.inl rfl, listLex_irrefl m.data, by simp⟩
  | cons r rest ih =>
    intro m
    by_cases hmr : listLex m.data r.date.data = true
    · obtain ⟨d, hfold, hmem, hdm, hrest⟩ := ih r.date
      refine ⟨d, ?_, ?_, ?_, ?_⟩
      · simpa [sql_max_step, hmr] using hfold
      · rcases hmem with h | h
        · exact Or.inr (by simp [h])
        · exact Or.inr (by simp; right; simpa using h)
      · by_contra hne
        have hdmt : listLex d.data m.data = true := by
          cases h : listLex d.data m.data with
          | false => exact absurd h hne
          | true => rfl
        have : listLex d.data r.date.data = true := listLex_trans _ _ _ hdmt hmr
        rw [this] at hdm
        exact Bool.true_eq_false.mp hdm
      · intro r' hr'
        rcases List.mem_cons.mp hr' with h | h
        · rw [h]; exact hdm
        · exact hrest r' h
    · have hmr' : listLex m.data r.date.data = false := by
        cases h : listLex m.data r.date.data with
        | false => rfl
        | true => exact absurd h hmr
      obtain ⟨d, hfold, hmem, hdm, hrest⟩ := ih m
      refine ⟨d, ?_, ?_, hdm, ?_⟩
      · simpa [sql_max_step, hmr'] using hfold
      · rcases hmem with h | h
        · exact Or.inl h
        · exact Or.inr (by simp; right; simpa using h)
      · intro r' hr'
        rcases List.mem_cons.mp hr' with h | h
        · rw [h]
          by_contra hne
          have hdrt : listLex d.data r.date.data = true := by
            cases hh : listLex d.data r.date.data with
            | false => exact absurd hh hne
            | true => rfl
          have : listLex d.data m.data = true := listLex_trans_not _ _ _ hdrt hmr'
          rw [this] at hdm
          exact Bool.true_eq_false.mp hdm
        · exact hrest r' h

theorem sql_max_spec (store : List FilingRecord) (d : String)
    (h : sql_max_date store = some d) :
    d ∈ store.map (fun r => r.date) ∧
    ∀ r ∈ store, listLex d.data r.date.data = false := by
  cases store with
  | nil => exact absurd h (by simp [sql_max_date])
  | cons r rest =>
    have hstep : sql_max_date (r :: rest) = List.foldl sql_max_step (some r.date) rest := rfl
    obtain ⟨d', hfold, hmem, hdm, hrest⟩ := sql_max_go rest r.date
    have hd : d' = d := by
      rw [hstep, hfold] at h
      exact Option.some.inj h
    subst hd
    constructor
    · rcases hmem with hh | hh
      · simp [hh]
      · simp; right; simpa using hh
    · intro r' hr'
      rcases List.mem_cons.mp hr' with hh | hh
      · rw [hh]; exact hdm
      · exact hrest r' hh

/-- C1: for a fixed calendar day (`today`) and fixed mood argument
(including `none`), any two calls to `get_todays_stock_fortune` return the
identical catalog entry: the selected entry does not depend on the
generator state the call starts in nor on the entropy value the generator
is re-seeded with afterwards — the only state that differs between two
calls made on the same day with the same mood against the same catalog. -/
theorem get_todays_stock_fortune_deterministic (choiceFn : Nat → Nat → Nat)
    (seedOf : String → Nat) (e₁ e₂ : Nat) (catalog : List FortuneEntry)
    (today : String) (mood : Option String) (st₁ st₂ : Nat) :
    (get_todays_stock_fortune choiceFn seedOf e₁ catalog today mood st₁).1 =
    (get_todays_stock_fortune choiceFn seedOf e₂ catalog today mood st₂).1 :=
  fortune_fst_state_irrel choiceFn seedOf e₁ e₂ catalog today mood st₁ st₂

/-- C2: for every mood that is a key of `MOOD_MAPPING`, the selector picks
an entry whose sector lies in the mapped sector set, unless no catalog
entry has a sector in that set, in which case the pick is made from the
full catalog; in either case a non-empty catalog always yields an entry. -/
theorem get_todays_stock_fortune_mood_filter (choiceFn : Nat → Nat → Nat)
    (seedOf : String → Nat) (entropySeed : Nat) (catalog : List FortuneEntry)
    (today m : String) (preferred : List String) (st : Nat)
    (hm : List.lookup m MOOD_MAPPING = some preferred) (hcat : catalog ≠ []) :
    ∃ e, (get_todays_stock_fortune choiceFn seedOf entropySeed catalog today (some m) st).1 =
        some e ∧
      (preferred.contains e.sector = true ∨
        catalog.filter (fun stock => preferred.contains stock.sector) = []) := by
  have hm0 : m ≠ "" := by
    intro he
    rw [he, (by decide : List.lookup "" MOOD_MAPPING = (none : Option (List String)))] at hm
    exact Option.noConfusion hm
  have hisE : catalog.isEmpty = false := by
    cases catalog with
    | nil => exact absurd rfl hcat
    | cons c cs => rfl
  simp only [get_todays_stock_fortune, hisE, Bool.false_eq_true, if_false, moodFiltered,
    if_neg hm0, hm]
  by_cases hfs : (catalog.filter (fun stock => preferred.contains stock.sector)).isEmpty = true
  · have hnil : catalog.filter (fun stock => preferred.contains stock.sector) = [] :=
      List.isEmpty_iff.mp hfs
    rw [if_pos hfs]
    obtain ⟨e, he, _⟩ :=
      pick_get_mem catalog
        (choiceFn (seedOf today) catalog.length) hcat
    exact ⟨e, he, Or.inr hnil⟩
  · have hfsne : catalog.filter (fun stock => preferred.contains stock.sector) ≠ [] := by
      intro hh
      rw [hh] at hfs
      exact hfs rfl
    rw [if_neg hfs]
    obtain ⟨e, he, hmem⟩ :=
      pick_get_mem (catalog.filter (fun stock => preferred.contains stock.sector))
        (choiceFn (seedOf today) (catalog.filter (fun stock => preferred.contains stock.sector)).length)
        hfsne
    exact ⟨e, he, Or.inl (List.mem_filter.mp hmem).2⟩

/-- Witness for C2 at concrete inputs: the fallback catalog, mood 保守的
(mapped to the sectors 銀行業, 食料品, 卸売業, 小売業). -/
theorem get_todays_stock_fortune_mood_filter_witness :
    List.lookup "保守的" MOOD_MAPPING = some ["銀行業", "食料品", "卸売業", "小売業"] ∧
    fallback_stock_fortune_data ≠ [] ∧
    ∃ e, (get_todays_stock_fortune (fun _ _ => 1) (fun _ => 0) 0
            fallback_stock_fortune_data "20240101" (some "保守的") 0).1 = some e ∧
      ((["銀行業", "食料品", "卸売業", "小売業"] : List String).contains e.sector = true ∨
        fallback_stock_fortune_data.filter
          (fun stock => (["銀行業", "食料品", "卸売業", "小売業"] : List String).contains stock.sector) = []) :=
  ⟨by decide, by decide,
    get_todays_stock_fortune_mood_filter (fun _ _ => 1) (fun _ => 0) 0
      fallback_stock_fortune_data "20240101" "保守的" ["銀行業", "食料品", "卸売業", "小売業"] 0
      (by decide) (by decide)⟩

/-- C3 counterexample: `load_stock_fortune_data` does not validate a
successfully loaded dataset, so the load outcome in which the external
JSON file parses to an empty list yields an empty catalog — the claim
that every outcome of the load is non-empty fails at this input. -/
theorem load_stock_fortune_data_empty_counterexample :
    (load_stock_fortune_data (Except.ok [])).isEmpty = true := rfl

/-- C3 amended: the failure outcome of `load_stock_fortune_data` returns
the fixed fallback set of exactly 3 entries, which is non-empty; a
successful load returns the parsed data unchanged, so that outcome is
non-empty exactly when the loaded dataset itself is non-empty (an empty
external dataset is the one load outcome with an empty catalog). -/
theorem load_stock_fortune_data_nonempty_amended :
    (∀ msg : String,
      load_stock_fortune_data (Except.error msg) = fallback_stock_fortune_data) ∧
    fallback_stock_fortune_data.length = 3 ∧
    fallback_stock_fortune_data.isEmpty = false ∧
    (∀ data : List FortuneEntry, data.isEmpty = false →
      (load_stock_fortune_data (Except.ok data)).isEmpty = false) :=
  ⟨fun _ => rfl, rfl, rfl, fun _ h => h⟩

/-- Witness for the amended C3: the successful-load branch keeps a
non-empty dataset non-empty, evaluated at the fallback dataset itself. -/
theorem load_stock_fortune_data_nonempty_amended_witness :
    fallback_stock_fortune_data.isEmpty = false ∧
    (load_stock_fortune_data (Except.ok fallback_stock_fortune_data)).isEmpty = false :=
  ⟨by decide,
    load_stock_fortune_data_nonempty_amended.2.2.2 fallback_stock_fortune_data (by decide)⟩

/-- C4: a text whose trimmed form equals any of the four accepted
daily-fortune literals is dispatched to `ShowFortune` with no mood (the
earlier analysis-trigger and detail-request rules do not fire on these
literals), and the exact-match rule accepts precisely this literal set. -/
theorem daily_fortune_trigger_rule (t : String)
    (h : pyStrip t = "今日の株みくじをする！🥠" ∨ pyStrip t = "今日の株みくじ🍀" ∨
         pyStrip t = "今日の株みくじ" ∨ pyStrip t = "今日の株みくじをする") :
    handle_text_message t = ReplyAction.ShowFortune none ∧
    ∀ s : String, isDailyFortuneTrigger s = true ↔
      (s = "今日の株みくじをする！🥠" ∨ s = "今日の株みくじ🍀" ∨
       s = "今日の株みくじ" ∨ s = "今日の株みくじをする") := by
  constructor
  · simp only [handle_text_message]
    rcases h with h | h | h | h <;> rw [h] <;>
      rw [if_neg (by decide), if_neg (by decide), if_pos (by decide)]
  · intro s
    simp only [isDailyFortuneTrigger, Bool.or_eq_true, beq_iff_eq]
    tauto

/-- Witness for C4 at a concrete input whose trimmed form is the plain
literal 今日の株みくじ. -/
theorem daily_fortune_trigger_rule_witness :
    pyStrip " 今日の株みくじ " = "今日の株みくじ" ∧
    handle_text_message " 今日の株みくじ " = ReplyAction.ShowFortune none :=
  ⟨by decide, (daily_fortune_trigger_rule " 今日の株みくじ " (by decide)).1⟩

theorem string_data_append (a b : String) : (a ++ b).data = a.data ++ b.data := by
  cases a
  cases b
  rfl

/-- C5 counterexample: the detail branch removes every occurrence of the
marker 詳細: (Python `str.replace`), not only the leading one, so for the
input 詳細:A詳細:B the produced name is AB, not the trimmed remainder
A詳細:B that the claim predicts. -/
theorem detail_request_rule_counterexample :
    handle_text_message "詳細:A詳細:B" = ReplyAction.ShowCompanyDetail "AB" ∧
    (("AB" : String) == "A詳細:B") = false := by
  constructor
  · decide
  · decide

/-- C5 amended: on a trimmed text that starts with 詳細: (and is not the
earlier analysis trigger), the dispatcher yields `ShowCompanyDetail` with
the text after removal of every occurrence of 詳細:, trimmed; when the
remainder after the leading marker contains no further occurrence of the
marker, this coincides with the trimmed remainder the claim describes. -/
theorem detail_request_rule_amended (t : String)
    (h1 : pyStrip t ≠ "光通信を分析")
    (h2 : pyStartsWith (pyStrip t) "詳細:" = true) :
    handle_text_message t =
      ReplyAction.ShowCompanyDetail (pyStrip (pyReplace (pyStrip t) "詳細:" "")) ∧
    (∀ r : String, pyStrip t = "詳細:" ++ r →
      containsSeq "詳細:".data r.data = false →
      pyStrip (pyReplace (pyStrip t) "詳細:" "") = pyStrip r) := by
  constructor
  · simp only [handle_text_message]
    rw [if_neg h1, if_pos h2]
  · intro r hr hocc
    rw [hr]
    have hdata : (("詳細:" ++ r) : String).data = "詳細:".data ++ r.data :=
      string_data_append "詳細:" r
    show pyStrip (String.mk (replaceGo "詳細:".data [] ("詳細:" ++ r).data.length
      ("詳細:" ++ r).data)) = pyStrip r
    rw [hdata, replaceGo_strip_leading "詳細:".data r.data (by decide) hocc]

/-- Witness for the amended C5 at the concrete input 詳細: トヨタ自動車. -/
theorem detail_request_rule_amended_witness :
    pyStartsWith (pyStrip "詳細: トヨタ自動車") "詳細:" = true ∧
    handle_text_message "詳細: トヨタ自動車" =
      ReplyAction.ShowCompanyDetail (pyStrip (pyReplace (pyStrip "詳細: トヨタ自動車") "詳細:" "")) ∧
    pyStrip (pyReplace (pyStrip "詳細: トヨタ自動車") "詳細:" "") = pyStrip " トヨタ自動車" :=
  ⟨by decide,
   (detail_request_rule_amended "詳細: トヨタ自動車" (by decide) (by decide)).1,
   (detail_request_rule_amended "詳細: トヨタ自動車" (by decide) (by decide)).2
     " トヨタ自動車" (by decide) (by decide)⟩

/-- C6 counterexample: the mood branch removes every occurrence of the
marker 株みくじ: before trimming, so the input 株みくじ:株みくじ:おまかせ
collapses to the sentinel おまかせ and is dispatched with no mood, while
the claim predicts the mood 株みくじ:おまかせ (the trimmed remainder after
the leading marker, which is not the sentinel). -/
theorem mood_fortune_rule_counterexample :
    handle_text_message "株みくじ:株みくじ:おまかせ" = ReplyAction.ShowFortune none ∧
    (ReplyAction.ShowFortune none ==
      ReplyAction.ShowFortune (some "株みくじ:おまかせ")) = false := by
  constructor
  · decide
  · decide

/-- C6 amended: on a trimmed text that starts with 株みくじ: and matches no
earlier rule, the dispatcher yields `ShowFortune` whose mood is the text
with every occurrence of 株みくじ: removed and then trimmed, normalized to
no mood when that value equals the sentinel おまかせ; when the remainder
after the leading marker contains no further occurrence of the marker,
that mood value coincides with the trimmed remainder the claim describes. -/
theorem mood_fortune_rule_amended (t : String)
    (h1 : pyStrip t ≠ "光通信を分析")
    (h2 : pyStartsWith (pyStrip t) "詳細:" = false)
    (h3 : isDailyFortuneTrigger (pyStrip t) = false)
    (h4 : pyStartsWith (pyStrip t) "株みくじ:" = true) :
    handle_text_message t =
      ReplyAction.ShowFortune
        (if pyStrip (pyReplace (pyStrip t) "株みくじ:" "") = "おまかせ" then none
         else some (pyStrip (pyReplace (pyStrip t) "株みくじ:" ""))) ∧
    (∀ r : String, pyStrip t = "株みくじ:" ++ r →
      containsSeq "株みくじ:".data r.data = false →
      pyStrip (pyReplace (pyStrip t) "株みくじ:" "") = pyStrip r) := by
  constructor
  · simp only [handle_text_message]
    rw [if_neg h1, if_neg (by simp [h2]), if_neg (by simp [h3]), if_pos h4]
  · intro r hr hocc
    rw [hr]
    have hdata : (("株みくじ:" ++ r) : String).data = "株みくじ:".data ++ r.data :=
      string_data_append "株みくじ:" r
    show pyStrip (String.mk (replaceGo "株みくじ:".data [] ("株みくじ:" ++ r).data.length
      ("株みくじ:" ++ r).data)) = pyStrip r
    rw [hdata, replaceGo_strip_leading "株みくじ:".data r.data (by decide) hocc]

/-- Witness for the amended C6 at the concrete input 株みくじ:積極的. -/
theorem mood_fortune_rule_amended_witness :
    pyStartsWith (pyStrip "株みくじ:積極的") "株みくじ:" = true ∧
    handle_text_message "株みくじ:積極的" = ReplyAction.ShowFortune (some "積極的") ∧
    pyStrip (pyReplace (pyStrip "株みくじ:積極的") "株みくじ:" "") = pyStrip "積極的" := by
  refine ⟨by decide, ?_, ?_⟩
  · have h := (mood_fortune_rule_amended "株みくじ:積極的"
      (by decide) (by decide) (by decide) (by decide)).1
    rw [h]
    decide
  · exact (mood_fortune_rule_amended "株みくじ:積極的"
      (by decide) (by decide) (by decide) (by decide)).2 "積極的" (by decide) (by decide)

/-- C7 counterexample: Python's falsiness test `if not latest_date` also
fires on the empty string, so a non-empty filing store whose rows all
carry the empty-string date is answered with the 404 body instead of the
200 response the claim requires for every non-empty store. -/
theorem latest_companies_nonempty_counterexample :
    get_latest_companies (Except.ok
      [ { company_name := "A社", stock_code := "100", document_type := "有報", date := "" } ]) =
      ApiResponse.notFound "No data found" ∧
    statusCode (get_latest_companies (Except.ok
      [ { company_name := "A社", stock_code := "100", document_type := "有報", date := "" } ])) = 404 := by
  constructor
  · decide
  · decide

/-- C7 amended: for every filing store whose maximum date is a non-empty
string, the endpoint answers 200 with that maximum as `latest_date` (it is
a date present in the store and no stored date exceeds it in the binary
collation) and with exactly the records carrying that date, projected to
name, code and type. -/
theorem latest_companies_ok_amended (store : List FilingRecord) (d : String)
    (hmax : sql_max_date store = some d) (hne : d ≠ "") :
    get_latest_companies (Except.ok store) = ApiResponse.ok d (companies_for store d) ∧
    d ∈ store.map (fun r => r.date) ∧
    (∀ r ∈ store, listLex d.data r.date.data = false) ∧
    (∀ c : CompanyOut, c ∈ companies_for store d ↔
      ∃ r, r ∈ store ∧ r.date = d ∧
        c = { name := r.company_name, code := r.stock_code, type := r.document_type }) := by
  obtain ⟨hmem, hmax'⟩ := sql_max_spec store d hmax
  refine ⟨?_, hmem, hmax', ?_⟩
  · simp [get_latest_companies, hmax, hne]
  · intro c
    constructor
    · intro hc
      simp only [companies_for, List.mem_map] at hc
      obtain ⟨r, hr, hcr⟩ := hc
      have hrf := List.mem_filter.mp hr
      exact ⟨r, hrf.1, by simpa using hrf.2, hcr.symm⟩
    · rintro ⟨r, hr, hdate, hc⟩
      simp only [companies_for, List.mem_map]
      exact ⟨r, List.mem_filter.mpr ⟨hr, by simp [hdate]⟩, hc.symm⟩

/-- Witness for the amended C7 on a store with rows dated 2024-05-01 and
2024-05-02. -/
theorem latest_companies_ok_amended_witness :
    sql_max_date
      [ { company_name := "A社", stock_code := "100", document_type := "有報", date := "2024-05-01" },
        { company_name := "B社", stock_code := "200", document_type := "有報", date := "2024-05-02" } ] =
      some "2024-05-02" ∧
    get_latest_companies (Except.ok
      [ { company_name := "A社", stock_code := "100", document_type := "有報", date := "2024-05-01" },
        { company_name := "B社", stock_code := "200", document_type := "有報", date := "2024-05-02" } ]) =
      ApiResponse.ok "2024-05-02"
        (companies_for
          [ { company_name := "A社", stock_code := "100", document_type := "有報", date := "2024-05-01" },
            { company_name := "B社", stock_code := "200", document_type := "有報", date := "2024-05-02" } ]
          "2024-05-02") :=
  ⟨by decide,
   (latest_companies_ok_amended
     [ { company_name := "A社", stock_code := "100", document_type := "有報", date := "2024-05-01" },
       { company_name := "B社", stock_code := "200", document_type := "有報", date := "2024-05-02" } ]
     "2024-05-02" (by decide) (by decide)).1⟩

/-- C8: an empty filing store is answered with the 404 body carrying
exactly the error text No data found, and this response is distinct from
the 500 response produced when the query raises, whatever the message. -/
theorem latest_companies_empty_store (msg : String) :
    get_latest_companies (Except.ok []) = ApiResponse.notFound "No data found" ∧
    statusCode (get_latest_companies (Except.ok [])) = 404 ∧
    get_latest_companies (Except.error msg) = ApiResponse.serverError msg ∧
    statusCode (get_latest_companies (Except.error msg)) = 500 ∧
    (get_latest_companies (Except.ok []) == get_latest_companies (Except.error msg)) = false :=
  ⟨rfl, rfl, rfl, rfl, rfl⟩

/-- C9: at most 5 company names are fetched for the quick-reply menu, one
option is built per fetched name, the option at each index carries the
label `name[:20]` and the payload text 詳細: followed by the full name;
the label has exactly 20 characters when the name is longer than 20
characters and is the unchanged name otherwise. -/
theorem quick_reply_truncation (names : List String) (i : Nat) (name : String)
    (hname : (get_latest_companies_by_date names 5).get? i = some name) :
    (get_latest_companies_by_date names 5).length ≤ 5 ∧
    (analysis_quick_replies names).length = (get_latest_companies_by_date names 5).length ∧
    (analysis_quick_replies names).get? i =
      some { label := String.mk (name.data.take 20), text := "詳細:" ++ name } ∧
    (String.mk (name.data.take 20)).length = min 20 name.length ∧
    (20 < name.length → (String.mk (name.data.take 20)).length = 20) ∧
    (name.length ≤ 20 → String.mk (name.data.take 20) = name) := by
  have hlen : (String.mk (name.data.take 20)).length = min 20 name.length := by
    show (name.data.take 20).length = min 20 name.length
    exact List.length_take 20 name.data
  refine ⟨?_, ?_, ?_, hlen, ?_, ?_⟩
  · simp [get_latest_companies_by_date]
  · simp [analysis_quick_replies, build_quick_reply_items]
  · simp only [analysis_quick_replies, build_quick_reply_items]
    rw [List.get?_map, hname]
    rfl
  · intro h
    rw [hlen]
    omega
  · intro h
    have ht : name.data.take 20 = name.data := List.take_of_length_le h
    rw [ht]

/-- Witness for C9 on a single 25-character company name: it is fetched,
its option is built, and its label is cut to exactly 20 characters. -/
theorem quick_reply_truncation_witness :
    (get_latest_companies_by_date ["あいうえおかきくけこさしすせそたちつてとなにぬねの"] 5).get? 0 =
      some "あいうえおかきくけこさしすせそたちつてとなにぬねの" ∧
    (analysis_quick_replies ["あいうえおかきくけこさしすせそたちつてとなにぬねの"]).get? 0 =
      some { label := String.mk ("あいうえおかきくけこさしすせそたちつてとなにぬねの".data.take 20),
             text := "詳細:" ++ "あいうえおかきくけこさしすせそたちつてとなにぬねの" } ∧
    (String.mk ("あいうえおかきくけこさしすせそたちつてとなにぬねの".data.take 20)).length = 20 :=
  ⟨by decide,
   (quick_reply_truncation ["あいうえおかきくけこさしすせそたちつてとなにぬねの"] 0
     "あいうえおかきくけこさしすせそたちつてとなにぬねの" (by decide)).2.2.1,
   (quick_reply_truncation ["あいうえおかきくけこさしすせそたちつてとなにぬねの"] 0
     "あいうえおかきくけこさしすせそたちつてとなにぬねの" (by decide)).2.2.2.2.1 (by decide)⟩

/-- C10: on the same calendar day (same seed string and same displayed
date), the fortune reply text produced by the postback handler for the
opaque code action=fortune is character-for-character the text produced by
the daily-fortune branch of the text-message handler, whatever generator
states the two calls start from and whatever entropy values reseed the
generator afterwards — including the apology text when the catalog is
empty. -/
theorem postback_fortune_matches_text_fortune (choiceFn : Nat → Nat → Nat)
    (seedOf : String → Nat) (e₁ e₂ : Nat) (catalog : List FortuneEntry)
    (today todayFmt : String) (st₁ st₂ : Nat) :
    handle_postback choiceFn seedOf e₁ catalog today todayFmt "action=fortune" st₁ =
    text_message_fortune_reply choiceFn seedOf e₂ catalog today todayFmt st₂ := by
  unfold handle_postback
  rw [if_neg (by decide), if_neg (by decide), if_pos rfl]
  unfold text_message_fortune_reply
  rw [fortune_fst_state_irrel choiceFn seedOf e₁ e₂ catalog today none st₁ st₂]
